import Mathlib

/-!
Verification of the original logic in the `yo-wrangle` dataset-curation
utilities.  Python sources are embedded shallowly:

* Python floats are modelled as exact rationals (`ℚ`);
* Python/numpy integers are modelled as `ℤ` (or `ℕ` for sizes);
* `int(float)` is truncation toward zero (`pytrunc`);
* raised exceptions are modelled with `Except String`, propagating out of
  loops exactly as an uncaught Python exception aborts the enclosing loop;
* images are modelled by the data the claims are about: their pixel
  dimensions (for resize/crop/slicing) — `cv2`'s resize returns an image of
  exactly the requested size, and numpy slicing yields the sliced extent;
* the filesystem is modelled as the list of existing paths, and copy
  operations return the list of paths they create.
-/

/-! ## Python / numpy primitives -/

/-- Truncation toward zero: the behaviour of Python's `int(float)`
conversion (`int(9.9) = 9`, `int(-0.5) = 0`). -/
def pytrunc (q : ℚ) : ℤ := if q < 0 then ⌈q⌉ else ⌊q⌋

/-- `numpy.clip(v, a_min=lo, a_max=hi)` on integers: first the lower bound
is applied, then the upper bound. -/
def npClip (v lo hi : ℤ) : ℤ := min (max v lo) hi

/-- Python's `round(q, 0)` (banker's rounding): round to the nearest
integer, ties going to the even integer. -/
def pyRoundHalfEven (q : ℚ) : ℤ :=
  let f : ℤ := ⌊q⌋
  let r : ℚ := q - f
  if r < 1 / 2 then f
  else if 1 / 2 < r then f + 1
  else if Even f then f else f + 1

/-- Python's `lst[:n]` slice: for `0 ≤ n` take the first `n` elements, for
negative `n` drop the last `-n` elements. -/
def pySliceTake {α : Type} (l : List α) (n : ℤ) : List α :=
  if 0 ≤ n then l.take n.toNat else l.take ((l.length : ℤ) + n).toNat

/-! ## Patch-region computation

`_extract_features_for_patch` (src/yo_ratchet/yo_filter/unsupervised.py,
lines 251-259) reads the image, then computes the padded, clipped crop
rectangle in pixel space. -/

/-- `PATCH_MARGIN = 0.01` from `yo_ratchet/yo_filter/unsupervised.py`. -/
def PATCH_MARGIN : ℚ := 1 / 100

/-- Integer pixel rectangle produced for a patch crop. -/
structure PatchRegion where
  x1 : ℤ
  x2 : ℤ
  y1 : ℤ
  y2 : ℤ
deriving DecidableEq, Repr

/-- The crop rectangle of `_extract_features_for_patch`
(`unsupervised.py` lines 254-257):
`x1 = np.clip(int((x - w / 2 - PATCH_MARGIN) * img_w), a_min=0, a_max=img_w)`
and symmetrically for `x2`, `y1`, `y2`.  Python's `int()` truncates toward
zero. -/
def extractPatchRegion (x y w h : ℚ) (imgW imgH : ℤ) : PatchRegion where
  x1 := npClip (pytrunc ((x - w / 2 - PATCH_MARGIN) * imgW)) 0 imgW
  x2 := npClip (pytrunc ((x + w / 2 + PATCH_MARGIN) * imgW)) 0 imgW
  y1 := npClip (pytrunc ((y - h / 2 - PATCH_MARGIN) * imgH)) 0 imgH
  y2 := npClip (pytrunc ((y + h / 2 + PATCH_MARGIN) * imgH)) 0 imgH

/-- The spec's formula for the patch rectangle, written exactly as the spec
states it: `x1 = clip(round((x_center − width/2 − margin) * image_width),
0, image_width)`, rounding to nearest, symmetric for `x2`/`y1`/`y2`.
`round` is round-to-nearest (`round (7/10) = 1`). -/
def specPatchRegionRound (x y w h : ℚ) (imgW imgH : ℤ) (margin : ℚ) :
    PatchRegion where
  x1 := npClip (round ((x - w / 2 - margin) * imgW)) 0 imgW
  x2 := npClip (round ((x + w / 2 + margin) * imgW)) 0 imgW
  y1 := npClip (round ((y - h / 2 - margin) * imgH)) 0 imgH
  y2 := npClip (round ((y + h / 2 + margin) * imgH)) 0 imgH

/-- The amended spec formula: as `specPatchRegionRound` but with truncation
toward zero in place of rounding to nearest. -/
def specPatchRegionTrunc (x y w h : ℚ) (imgW imgH : ℤ) (margin : ℚ) :
    PatchRegion where
  x1 := npClip (pytrunc ((x - w / 2 - margin) * imgW)) 0 imgW
  x2 := npClip (pytrunc ((x + w / 2 + margin) * imgW)) 0 imgW
  y1 := npClip (pytrunc ((y - h / 2 - margin) * imgH)) 0 imgH
  y2 := npClip (pytrunc ((y + h / 2 + margin) * imgH)) 0 imgH

/-! ### Basic lemmas about the primitives -/

lemma pytrunc_mono {a b : ℚ} (h : a ≤ b) : pytrunc a ≤ pytrunc b := by
  unfold pytrunc
  split_ifs with ha hb hb
  · exact Int.ceil_mono h
  · have h1 : ⌈a⌉ ≤ 0 := by
      rw [show (0 : ℤ) = ⌈(0 : ℚ)⌉ by simp]
      exact Int.ceil_mono ha.le
    have h2 : (0 : ℤ) ≤ ⌊b⌋ := by
      rw [show (0 : ℤ) = ⌊(0 : ℚ)⌋ by simp]
      exact Int.floor_mono (not_lt.mp hb)
    omega
  · exact absurd (lt_of_le_of_lt h hb) ha
  · exact Int.floor_mono h

lemma npClip_mono {v v' lo hi : ℤ} (h : v ≤ v') :
    npClip v lo hi ≤ npClip v' lo hi := by
  unfold npClip; omega

lemma npClip_lower {v lo hi : ℤ} (h : lo ≤ hi) : lo ≤ npClip v lo hi := by
  unfold npClip; omega

lemma npClip_upper (v lo hi : ℤ) : npClip v lo hi ≤ hi := by
  unfold npClip; omega

/-- C1 (amended): for every detection with nonnegative width and height
(any centre, including boxes fully outside `[0,1]` after padding) and every
image of positive pixel dimensions, the patch rectangle of
`_extract_features_for_patch` satisfies `0 ≤ x1 ≤ x2 ≤ W` and
`0 ≤ y1 ≤ y2 ≤ H`. -/
theorem extractPatchRegion_within_bounds (x y w h : ℚ) (imgW imgH : ℤ)
    (hW : 0 < imgW) (hH : 0 < imgH) (hw : 0 ≤ w) (hh : 0 ≤ h) :
    0 ≤ (extractPatchRegion x y w h imgW imgH).x1 ∧
    (extractPatchRegion x y w h imgW imgH).x1 ≤
      (extractPatchRegion x y w h imgW imgH).x2 ∧
    (extractPatchRegion x y w h imgW imgH).x2 ≤ imgW ∧
    0 ≤ (extractPatchRegion x y w h imgW imgH).y1 ∧
    (extractPatchRegion x y w h imgW imgH).y1 ≤
      (extractPatchRegion x y w h imgW imgH).y2 ∧
    (extractPatchRegion x y w h imgW imgH).y2 ≤ imgH := by
  have hm : (0 : ℚ) ≤ PATCH_MARGIN := by norm_num [PATCH_MARGIN]
  have hWq : (0 : ℚ) ≤ (imgW : ℚ) := by exact_mod_cast hW.le
  have hHq : (0 : ℚ) ≤ (imgH : ℚ) := by exact_mod_cast hH.le
  have hx : (x - w / 2 - PATCH_MARGIN) * imgW ≤
      (x + w / 2 + PATCH_MARGIN) * imgW := by
    apply mul_le_mul_of_nonneg_right _ hWq
    linarith
  have hy : (y - h / 2 - PATCH_MARGIN) * imgH ≤
      (y + h / 2 + PATCH_MARGIN) * imgH := by
    apply mul_le_mul_of_nonneg_right _ hHq
    linarith
  refine ⟨npClip_lower hW.le, npClip_mono (pytrunc_mono hx), npClip_upper _ _ _,
    npClip_lower hH.le, npClip_mono (pytrunc_mono hy), npClip_upper _ _ _⟩

/-- Witness for C1 (amended) at the concrete detection
`x=2, y=0, w=0, h=1` on a 10×10 image. -/
theorem extractPatchRegion_within_bounds_witness :
    (0 : ℤ) < 10 ∧ (0 : ℚ) ≤ 0 ∧ (0 : ℚ) ≤ 1 ∧
    (0 ≤ (extractPatchRegion 2 0 0 1 10 10).x1 ∧
     (extractPatchRegion 2 0 0 1 10 10).x1 ≤
       (extractPatchRegion 2 0 0 1 10 10).x2 ∧
     (extractPatchRegion 2 0 0 1 10 10).x2 ≤ 10 ∧
     0 ≤ (extractPatchRegion 2 0 0 1 10 10).y1 ∧
     (extractPatchRegion 2 0 0 1 10 10).y1 ≤
       (extractPatchRegion 2 0 0 1 10 10).y2 ∧
     (extractPatchRegion 2 0 0 1 10 10).y2 ≤ 10) :=
  ⟨by decide, le_refl 0, zero_le_one,
    extractPatchRegion_within_bounds 2 0 0 1 10 10 (by decide) (by decide)
      (le_refl 0) zero_le_one⟩

/-- C1 counterexample: with a negative width (the claim quantifies over any
width), `x1 ≤ x2` fails: for `x=1, w=-1` on a 10-pixel-wide image the code
produces `x1 = 10 > 5 = x2`. -/
theorem extractPatchRegion_neg_width_violates_order :
    ¬ ((extractPatchRegion 1 0 (-1) 0 10 10).x1 ≤
       (extractPatchRegion 1 0 (-1) 0 10 10).x2) := by
  have h1 : (extractPatchRegion 1 0 (-1) 0 10 10).x1 = 10 := by
    show npClip (pytrunc ((1 - (-1) / 2 - PATCH_MARGIN) * (10 : ℤ))) 0 10 = 10
    norm_num [PATCH_MARGIN, pytrunc, npClip]
  have h2 : (extractPatchRegion 1 0 (-1) 0 10 10).x2 = 5 := by
    show npClip (pytrunc ((1 + (-1) / 2 + PATCH_MARGIN) * (10 : ℤ))) 0 10 = 5
    norm_num [PATCH_MARGIN, pytrunc, npClip]
  omega

/-- C4 (amended): the crop rectangle of `_extract_features_for_patch` is
exactly the spec's clip formula with rounding replaced by truncation toward
zero, at margin `PATCH_MARGIN = 0.01`. -/
theorem extractPatchRegion_eq_spec_trunc (x y w h : ℚ) (imgW imgH : ℤ) :
    extractPatchRegion x y w h imgW imgH =
      specPatchRegionTrunc x y w h imgW imgH PATCH_MARGIN := rfl

/-! ## Image zoom and centre crop (src/yo_wrangle/visualise.py)

Images are modelled by their pixel dimensions.  `cv2.resize(img, (w, h))`
returns an image of exactly `w × h` pixels; a numpy slice
`img[a:b, c:d]` of an `H' × W'` array has the extent given by Python
slice semantics (`pySliceLen`). -/

/-- Length of the Python slice `arr[a:b]` of a sequence of length `n`:
negative indices count from the end, then both are clamped to `[0, n]`. -/
def pySliceNorm (n i : ℤ) : ℤ := max 0 (min (if i < 0 then i + n else i) n)

/-- Extent of the slice `arr[a:b]` for a sequence of length `n`. -/
def pySliceLen (n a b : ℤ) : ℤ := max 0 (pySliceNorm n b - pySliceNorm n a)

/-- Dimensions `(new_w, new_h)` produced by `_scale_image`
(`visualise.py` lines 166-173):
`cv2.resize(img, (int(img.shape[1] * factor), int(img.shape[0] * factor)))`. -/
def scaleImage (imgW imgH : ℤ) (factor : ℚ) : ℤ × ℤ :=
  (pytrunc ((imgW : ℚ) * factor), pytrunc ((imgH : ℚ) * factor))

/-- Dimensions `(rows, cols)` of the crop produced by
`_crop_image_for_given_centre` (`visualise.py` lines 129-163) applied to an
image of `imgH` rows and `imgW` columns with requested crop dimensions
`(dimW, dimH)`.  Mirrors the source line by line: the crop size is matched
against the image size, `min_x`/`max_x` centre the crop horizontally,
`min_y` is derived from `y_centre` and clamped at `0`, and `max_y` is
clamped at the image height (shifting `min_y` with it). -/
def cropImageForGivenCentre (imgW imgH dimW dimH : ℤ) (yCentre : ℚ) :
    ℤ × ℤ :=
  let width := imgW
  let height := imgH
  let cropWidth := if dimW < imgW then dimW else imgW
  let cropHeight := if dimH < imgH then dimH else imgH
  let minX := pytrunc ((width : ℚ) / 2 - (cropWidth : ℚ) / 2)
  let maxX := pytrunc ((width : ℚ) / 2 + (cropWidth : ℚ) / 2)
  let minY0 := pytrunc ((height : ℚ) * yCentre - (cropHeight : ℚ) / 2)
  let minY1 := if minY0 < 0 then 0 else minY0
  let maxY1 := minY1 + cropHeight
  let minY := if maxY1 > height then height - cropHeight else minY1
  let maxY := if maxY1 > height then height else maxY1
  (pySliceLen imgH minY maxY, pySliceLen imgW minX maxX)

/-- Dimensions `(rows, cols)` of the image returned by `zoom_image`
(`visualise.py` lines 176-199): scale up by `factor = 100 / zoom_pcnt`,
then centre-crop back to the original `(width, height)`. -/
def zoomImage (zoomPcnt : ℚ) (imgW imgH : ℤ) (yCentre : ℚ) : ℤ × ℤ :=
  cropImageForGivenCentre (scaleImage imgW imgH (100 / zoomPcnt)).1
    (scaleImage imgW imgH (100 / zoomPcnt)).2 imgW imgH yCentre

lemma pytrunc_of_nonneg {q : ℚ} (h : 0 ≤ q) : pytrunc q = ⌊q⌋ :=
  if_neg (not_lt.mpr h)

lemma pySliceLen_of_bounds {n a b : ℤ} (ha0 : 0 ≤ a) (han : a ≤ n)
    (hb0 : 0 ≤ b) (hbn : b ≤ n) : pySliceLen n a b = max 0 (b - a) := by
  unfold pySliceLen pySliceNorm
  rw [if_neg (not_lt.mpr ha0), if_neg (not_lt.mpr hb0)]
  omega

lemma cropImageForGivenCentre_dims (imgW imgH dimW dimH : ℤ) (yCentre : ℚ)
    (hW : 0 < dimW) (hH : 0 < dimH) (hWle : dimW ≤ imgW)
    (hHle : dimH ≤ imgH) :
    cropImageForGivenCentre imgW imgH dimW dimH yCentre = (dimH, dimW) := by
  have hcw : (if dimW < imgW then dimW else imgW) = dimW := by
    split_ifs <;> omega
  have hch : (if dimH < imgH then dimH else imgH) = dimH := by
    split_ifs <;> omega
  simp only [cropImageForGivenCentre, hcw, hch]
  have hD0 : (0 : ℤ) ≤ imgW - dimW := by omega
  have hDq : (0 : ℚ) ≤ ((imgW - dimW : ℤ) : ℚ) / 2 :=
    div_nonneg (by exact_mod_cast hD0) (by norm_num)
  have harg1 : (imgW : ℚ) / 2 - (dimW : ℚ) / 2 = ((imgW - dimW : ℤ) : ℚ) / 2 := by
    push_cast; ring
  have harg2 : (imgW : ℚ) / 2 + (dimW : ℚ) / 2 =
      ((imgW - dimW : ℤ) : ℚ) / 2 + (dimW : ℤ) := by
    push_cast; ring
  have hminX : pytrunc ((imgW : ℚ) / 2 - (dimW : ℚ) / 2) =
      ⌊((imgW - dimW : ℤ) : ℚ) / 2⌋ := by
    rw [harg1, pytrunc_of_nonneg hDq]
  have hmaxX : pytrunc ((imgW : ℚ) / 2 + (dimW : ℚ) / 2) =
      ⌊((imgW - dimW : ℤ) : ℚ) / 2⌋ + dimW := by
    rw [harg2, pytrunc_of_nonneg (by positivity), Int.floor_add_int]
  have hfl0 : 0 ≤ ⌊((imgW - dimW : ℤ) : ℚ) / 2⌋ :=
    Int.le_floor.mpr (by simpa using hDq)
  have hflD : ⌊((imgW - dimW : ℤ) : ℚ) / 2⌋ ≤ imgW - dimW := by
    have h1 : (0 : ℚ) ≤ ((imgW - dimW : ℤ) : ℚ) := by exact_mod_cast hD0
    have h2 : ((⌊((imgW - dimW : ℤ) : ℚ) / 2⌋ : ℤ) : ℚ) ≤
        ((imgW - dimW : ℤ) : ℚ) := le_trans (Int.floor_le _) (by linarith)
    exact_mod_cast h2
  rw [hminX, hmaxX]
  have hxlen : pySliceLen imgW ⌊((imgW - dimW : ℤ) : ℚ) / 2⌋
      (⌊((imgW - dimW : ℤ) : ℚ) / 2⌋ + dimW) = max 0 dimW := by
    rw [pySliceLen_of_bounds hfl0 (by omega) (by omega) (by omega)]
    congr 1
    omega
  rw [hxlen]
  set M := pytrunc ((imgH : ℚ) * yCentre - (dimH : ℚ) / 2) with hM
  by_cases hMneg : M < 0
  · rw [if_pos hMneg]
    have hcond : ¬ ((0 : ℤ) + dimH > imgH) := by omega
    rw [if_neg hcond, if_neg hcond]
    rw [pySliceLen_of_bounds (le_refl 0) (by omega) (by omega) (by omega)]
    simp only [Prod.mk.injEq]
    constructor <;> omega
  · rw [if_neg hMneg]
    by_cases hover : M + dimH > imgH
    · rw [if_pos hover, if_pos hover]
      rw [pySliceLen_of_bounds (by omega) (by omega) (by omega) (by omega)]
      simp only [Prod.mk.injEq]
      constructor <;> omega
    · rw [if_neg hover, if_neg hover]
      rw [pySliceLen_of_bounds (by omega) (by omega) (by omega) (by omega)]
      simp only [Prod.mk.injEq]
      constructor <;> omega

/-- C9: for every image of positive dimensions and every `zoom_pcnt`
strictly between 0 and 100 (and any `y_centre` in `[0,1]`), `zoom_image`
returns an image of exactly the original dimensions: `imgH` rows and
`imgW` columns. -/
theorem zoomImage_preserves_dims (zoomPcnt : ℚ) (imgW imgH : ℤ) (yCentre : ℚ)
    (hW : 0 < imgW) (hH : 0 < imgH) (hz0 : 0 < zoomPcnt)
    (hz1 : zoomPcnt < 100) (hy0 : 0 ≤ yCentre) (hy1 : yCentre ≤ 1) :
    zoomImage zoomPcnt imgW imgH yCentre = (imgH, imgW) := by
  have hf : (1 : ℚ) ≤ 100 / zoomPcnt := ((one_lt_div hz0).mpr hz1).le
  have hWf : (imgW : ℚ) ≤ (imgW : ℚ) * (100 / zoomPcnt) :=
    le_mul_of_one_le_right (by exact_mod_cast hW.le) hf
  have hHf : (imgH : ℚ) ≤ (imgH : ℚ) * (100 / zoomPcnt) :=
    le_mul_of_one_le_right (by exact_mod_cast hH.le) hf
  have hW' : imgW ≤ pytrunc ((imgW : ℚ) * (100 / zoomPcnt)) := by
    rw [pytrunc_of_nonneg (le_trans (by exact_mod_cast hW.le) hWf)]
    exact Int.le_floor.mpr hWf
  have hH' : imgH ≤ pytrunc ((imgH : ℚ) * (100 / zoomPcnt)) := by
    rw [pytrunc_of_nonneg (le_trans (by exact_mod_cast hH.le) hHf)]
    exact Int.le_floor.mpr hHf
  simp only [zoomImage, scaleImage]
  exact cropImageForGivenCentre_dims _ _ _ _ yCentre hW hH hW' hH'

/-- Witness for C9 at a 10×8 image with `zoom_pcnt = 50`, `y_centre = 0`. -/
theorem zoomImage_preserves_dims_witness :
    (0 : ℤ) < 10 ∧ (0 : ℤ) < 8 ∧ (0 : ℚ) < 50 ∧ (50 : ℚ) < 100 ∧
    (0 : ℚ) ≤ 0 ∧ (0 : ℚ) ≤ 1 ∧ zoomImage 50 10 8 0 = (8, 10) :=
  ⟨by decide, by decide, by norm_num, by norm_num, le_refl 0, zero_le_one,
    zoomImage_preserves_dims 50 10 8 0 (by decide) (by decide) (by norm_num)
      (by norm_num) (le_refl 0) zero_le_one⟩

/-- C4 counterexample: the code truncates rather than rounds: for
`x = 0.2, w = 0` on a 10-pixel-wide image, `(0.2 - 0.01) * 10 = 1.9`;
the code computes `x1 = 1` while the spec's round-to-nearest formula gives
`x1 = 2`. -/
theorem extractPatchRegion_ne_spec_round :
    (extractPatchRegion (1/5) 0 0 0 10 10).x1 ≠
      (specPatchRegionRound (1/5) 0 0 0 10 10 PATCH_MARGIN).x1 := by
  have h1 : (extractPatchRegion (1/5) 0 0 0 10 10).x1 = 1 := by
    show npClip (pytrunc ((1/5 - 0 / 2 - PATCH_MARGIN) * (10 : ℤ))) 0 10 = 1
    norm_num [PATCH_MARGIN, pytrunc, npClip]
  have h2 : (specPatchRegionRound (1/5) 0 0 0 10 10 PATCH_MARGIN).x1 = 2 := by
    show npClip (round ((1/5 - 0 / 2 - PATCH_MARGIN) * (10 : ℤ))) 0 10 = 2
    norm_num [PATCH_MARGIN, round_eq, npClip]
  omega

/-! ## Python string primitives

These operate on `String.data` character lists so that all computations
reduce inside the kernel. -/

/-- Python's `s.split(" ")`: split at every single space, keeping empty
fragments (`"a  b".split(" ") = ["a", "", "b"]`, `"".split(" ") = [""]`). -/
def splitSpaceChars : List Char → List (List Char)
  | [] => [[]]
  | c :: cs =>
      if c = ' ' then [] :: splitSpaceChars cs
      else
        match splitSpaceChars cs with
        | [] => [[c]]
        | t :: ts => (c :: t) :: ts

/-- Python's `line.split(" ")`. -/
def pySplitSpace (s : String) : List String :=
  (splitSpaceChars s.data).map (fun cs => String.mk cs)

/-- Python's `s.replace("\n", "")`: the pattern is a single character, so
this removes every newline character. -/
def pyRemoveNewlines (s : String) : String :=
  String.mk (s.data.filter (fun c => c != '\n'))

/-- Python's `s.strip()`: drop leading and trailing whitespace. -/
def pyStrip (s : String) : String :=
  String.mk
    (((s.data.dropWhile Char.isWhitespace).reverse.dropWhile
        Char.isWhitespace).reverse)

/-- Decimal digit test (code points 48-57). -/
def isDigitChar (c : Char) : Bool := 48 ≤ c.toNat && c.toNat ≤ 57

/-- Value of a digit string (most significant first). -/
def digitsToNat (cs : List Char) : ℕ :=
  cs.foldl (fun acc c => 10 * acc + (c.toNat - 48)) 0

/-- Python's `int(s)` for a stripped string: an optional sign followed by
at least one decimal digit; anything else raises `ValueError` (`none`). -/
def pyParseIntStr (s : String) : Option ℤ :=
  match s.data with
  | '-' :: rest =>
      if !rest.isEmpty && rest.all isDigitChar then
        some (-(digitsToNat rest : ℤ))
      else none
  | '+' :: rest =>
      if !rest.isEmpty && rest.all isDigitChar then
        some (digitsToNat rest : ℤ)
      else none
  | cs =>
      if !cs.isEmpty && cs.all isDigitChar then
        some (digitsToNat cs : ℤ)
      else none

/-- Python's `float(s)` for the decimal forms used by annotation files:
optional sign, digits, optionally a decimal point and further digits, with
at least one digit overall (`"1."` and `".5"` parse, `"."`, `""` and
`"junk"` raise `ValueError`).  Exponent and `inf`/`nan` forms do not occur
in the data this pipeline reads and are not modelled. -/
def pyParseFloatChars (cs : List Char) : Option ℚ :=
  let intPart := cs.takeWhile isDigitChar
  match cs.dropWhile isDigitChar with
  | [] => if intPart.isEmpty then none else some (digitsToNat intPart : ℚ)
  | '.' :: frac =>
      if frac.all isDigitChar && !(intPart.isEmpty && frac.isEmpty) then
        some ((digitsToNat intPart : ℚ) +
          (digitsToNat frac : ℚ) / (10 : ℚ) ^ frac.length)
      else none
  | _ => none

/-- Python's `float(s)` including an optional leading sign. -/
def pyParseFloatStr (s : String) : Option ℚ :=
  match s.data with
  | '-' :: rest => (pyParseFloatChars rest).map (fun q => -q)
  | '+' :: rest => pyParseFloatChars rest
  | cs => pyParseFloatChars cs

/-- `[float(x) for x in l]`: left to right, raising at the first
non-float. -/
def traverseFloats : List String → Option (List ℚ)
  | [] => some []
  | s :: rest =>
      match pyParseFloatStr s, traverseFloats rest with
      | some q, some qs => some (q :: qs)
      | _, _ => none

/-- Whether an `Except` result is a success. -/
def exceptIsOk {ε α : Type} (e : Except ε α) : Bool :=
  match e with
  | .ok _ => true
  | .error _ => false

instance {ε α : Type} [DecidableEq ε] [DecidableEq α] :
    DecidableEq (Except ε α) := fun a b =>
  match a, b with
  | Except.ok x, Except.ok y =>
      if h : x = y then isTrue (congrArg Except.ok h)
      else isFalse (fun hc => h (Except.ok.inj hc))
  | Except.error x, Except.error y =>
      if h : x = y then isTrue (congrArg Except.error h)
      else isFalse (fun hc => h (Except.error.inj hc))
  | Except.ok _, Except.error _ => isFalse (fun hc => Except.noConfusion hc)
  | Except.error _, Except.ok _ => isFalse (fun hc => Except.noConfusion hc)

/-! ## Annotation-line parsing (src/yo_wrangle/fiftyone_integration.py)

`_extract_annotation` (lines 24-33) and `_get_bounding_box` (lines 36-45)
are called for every line of an annotation file by
`init_fifty_one_dataset` (lines 159-166).  Neither function, nor the
calling loop, catches any exception, so `int()`/`float()` conversion
failures and short lines abort the whole read. -/

/-- `_extract_annotation(line, label_mapping)`: split the de-newlined line
on spaces, convert field 0 with `int()` (which may raise), look the class
up in the mapping (defaulting to "Unknown"), convert fields 1-4 with
`float()` (which may raise; fewer than 4 fields gives a shorter box
without an error here), and take field 5 as confidence when there are
exactly 6 fields. -/
def extractAnnotLine (line : String) (mapping : List (ℤ × String)) :
    Except String (String × List ℚ × Option String) :=
  let lineList := pySplitSpace (pyRemoveNewlines line)
  let classIdStr := pyStrip (lineList.headD "")
  match pyParseIntStr classIdStr with
  | none => Except.error "ValueError: invalid literal for int"
  | some classId =>
      let label := (mapping.lookup classId).getD "Unknown"
      match traverseFloats ((lineList.drop 1).take 4) with
      | none => Except.error "ValueError: could not convert string to float"
      | some yoloBox =>
          let confidence :=
            if lineList.length = 6 then some (lineList.getD 5 "") else none
          Except.ok (label, yoloBox, confidence)

/-- `_get_bounding_box(yolo_box)`: indexes `yolo_box[2]`, `[3]`, `[0]`,
`[1]`; a box with fewer than 4 entries raises `IndexError`. -/
def getBoundingBoxPy (yoloBox : List ℚ) : Except String (List ℚ) :=
  match yoloBox.get? 2, yoloBox.get? 3, yoloBox.get? 0, yoloBox.get? 1 with
  | some w, some h, some cx, some cy =>
      Except.ok [cx - w / 2, cy - h / 2, w, h]
  | _, _, _, _ => Except.error "IndexError: list index out of range"

/-- Processing of one annotation line inside the loop of
`init_fifty_one_dataset`: extract, then convert to a corner-format box. -/
def parseAnnotLine (line : String) (mapping : List (ℤ × String)) :
    Except String (String × List ℚ) :=
  match extractAnnotLine line mapping with
  | Except.error e => Except.error e
  | Except.ok (label, yoloBox, _) =>
      match getBoundingBoxPy yoloBox with
      | Except.error e => Except.error e
      | Except.ok bbox => Except.ok (label, bbox)

/-- The `for line in annotation_lines` loop of `init_fifty_one_dataset`
(lines 159-166): an uncaught exception on any line aborts the whole
file read. -/
def processAnnotLines (lines : List String) (mapping : List (ℤ × String)) :
    Except String (List (String × List ℚ)) :=
  match lines with
  | [] => Except.ok []
  | line :: rest =>
      match parseAnnotLine line mapping with
      | Except.error e => Except.error e
      | Except.ok d =>
          match processAnnotLines rest mapping with
          | Except.error e => Except.error e
          | Except.ok ds => Except.ok (d :: ds)

/-- C2 (amended): a malformed annotation line is not skipped: the first
line whose parse raises aborts the whole file read with that error, and no
later line is processed, no matter how many well-formed lines follow. -/
theorem processAnnotLines_aborts_at_first_error
    (mapping : List (ℤ × String)) (pre : List String) (bad : String)
    (post : List String) (e : String)
    (hpre : ∀ l ∈ pre, exceptIsOk (parseAnnotLine l mapping) = true)
    (hbad : parseAnnotLine bad mapping = Except.error e) :
    processAnnotLines (pre ++ bad :: post) mapping = Except.error e := by
  induction pre with
  | nil => simp only [List.nil_append, processAnnotLines, hbad]
  | cons l ls ih =>
      have hl := hpre l (List.mem_cons_self l ls)
      have hrest : processAnnotLines (ls ++ bad :: post) mapping =
          Except.error e :=
        ih (fun x hx => hpre x (List.mem_cons_of_mem l hx))
      cases hcase : parseAnnotLine l mapping with
      | error e2 => rw [hcase] at hl; simp [exceptIsOk] at hl
      | ok d =>
          simp only [List.cons_append, processAnnotLines, hcase,
            List.append_eq, hrest]

/-- Witness for C2 (amended): a file whose first line is well formed,
whose second line is `"junk"`, and whose third line is well formed, aborts
with the `int()` conversion error. -/
theorem processAnnotLines_aborts_witness :
    exceptIsOk (parseAnnotLine "5 1 1 0 0" []) = true ∧
    parseAnnotLine "junk" [] =
      Except.error "ValueError: invalid literal for int" ∧
    processAnnotLines ["5 1 1 0 0", "junk", "3 1 1 0 0"] [] =
      Except.error "ValueError: invalid literal for int" :=
  ⟨by decide, by decide,
    processAnnotLines_aborts_at_first_error [] ["5 1 1 0 0"] "junk"
      ["3 1 1 0 0"] "ValueError: invalid literal for int" (by decide)
      (by decide)⟩

/-- C2 counterexample: reading a file with the malformed middle line
`"junk"` aborts with an error — the claim's behaviour (skip the line,
process the rest) does not happen; the trailing well-formed line, which
parses fine on its own, is never reached. -/
theorem processAnnotLines_malformed_line_aborts_file :
    processAnnotLines ["5 1 1 0 0", "junk", "3 1 1 0 0"] [] =
      Except.error "ValueError: invalid literal for int" ∧
    exceptIsOk (parseAnnotLine "3 1 1 0 0" []) = true := by decide

/-! ## Patch loop (src/yo_ratchet/yo_filter/unsupervised.py lines 192-230)

For one annotation file whose image exists,
`get_patches_features_data_dict_list` deduplicates the lines
(`lines = set(lines)`, modelled as first-occurrence deduplication), parses
each, keeps the requested class and calls `_extract_features_for_patch` on
every such line — whatever rectangle the clipping produced.  The `Except`
result collects the rectangles actually handed to feature extraction. -/

/-- Python's `set(lines)` as used before iteration: duplicates removed
(iteration order of a CPython set is unspecified; first-occurrence order is
one faithful choice, and no claim depends on the order). -/
def pySetDedup (lines : List String) : List String := lines.eraseDups

/-- The per-line body of the loop: split the stripped line, convert field 0
with `int()` (may raise), skip lines of other classes, unpack fields 1-4
(`x, y, w, h = line_split[1:5]` raises on fewer than 4), convert each with
`float()` (may raise), and invoke `_extract_features_for_patch`, recording
the crop rectangle it computes.  There is no emptiness check anywhere. -/
def patchInvocationsFromLines (lines : List String) (classId imgW imgH : ℤ) :
    Except String (List PatchRegion) :=
  match lines with
  | [] => Except.ok []
  | line :: rest =>
      let lineSplit := pySplitSpace (pyStrip line)
      match pyParseIntStr (lineSplit.headD "") with
      | none => Except.error "ValueError: invalid literal for int"
      | some lineClassId =>
          if lineClassId = classId then
            match (lineSplit.drop 1).take 4 with
            | [xs, ys, ws, hs] =>
                match pyParseFloatStr xs, pyParseFloatStr ys,
                      pyParseFloatStr ws, pyParseFloatStr hs with
                | some x, some yv, some wv, some hv =>
                    match patchInvocationsFromLines rest classId imgW imgH with
                    | Except.error e => Except.error e
                    | Except.ok regions =>
                        Except.ok
                          (extractPatchRegion x yv wv hv imgW imgH :: regions)
                | _, _, _, _ =>
                    Except.error "ValueError: could not convert string to float"
            | _ => Except.error "ValueError: not enough values to unpack"
          else patchInvocationsFromLines rest classId imgW imgH

/-- Rectangles handed to `_extract_features_for_patch` for one annotation
file (`lines`), one class, and an image of `imgW × imgH` pixels. -/
def getPatchInvocations (lines : List String) (classId imgW imgH : ℤ) :
    Except String (List PatchRegion) :=
  patchInvocationsFromLines (pySetDedup lines) classId imgW imgH

/-- C5: the detection `0 2 2 0 0` (class 0, centred at (2,2), fully outside
the image) on a 100×100 image clips to the empty rectangle
`x1 = x2 = y1 = y2 = 100`, and the loop still invokes feature extraction on
it (the rectangle appears in the invocation list); `cv2.resize` then
receives an empty crop.  Nothing skips the empty patch. -/
theorem emptyPatchStillInvoked :
    getPatchInvocations ["0 2 2 0 0"] 0 100 100 =
      Except.ok [PatchRegion.mk 100 100 100 100] := by
  have hstep : getPatchInvocations ["0 2 2 0 0"] 0 100 100 =
      Except.ok [extractPatchRegion 2 2 0 0 100 100] := by rfl
  rw [hstep]
  have hreg : extractPatchRegion 2 2 0 0 100 100 =
      PatchRegion.mk 100 100 100 100 := by
    simp only [extractPatchRegion, PatchRegion.mk.injEq]
    refine ⟨?_, ?_, ?_, ?_⟩ <;> norm_num [npClip, pytrunc, PATCH_MARGIN]
  rw [hreg]

/-! ## Annotations-directory search

Two consumers look for an annotations subdirectory.
`get_patches_features_data_dict_list` (unsupervised.py lines 167-175)
probes the two recognized names and raises when neither exists.
`_get_annotations_root` (fiftyone_integration.py lines 96-117) filters the
subset folder's subdirectories to the recognized names, takes
`sorted(folders)[-1]` when any matched, and otherwise returns the subset
folder itself. -/

/-- Modelled from the spec: the recognized annotations-directory name
`YOLO_ANNOTATIONS_FOLDER_NAME` lives in `yo_wrangle/common.py`, which is
not among the provided sources; the spec's directory convention and the
docstrings of `fiftyone_integration.py` and `mine.py` name it
`"YOLO_darknet"`. -/
def YOLO_ANNOTATIONS_FOLDER_NAME : String := "YOLO_darknet"

/-- Modelled from the spec: the recognized annotations-directory name
`LABELS_FOLDER_NAME` lives in `yo_wrangle/common.py`, which is not among
the provided sources; the spec's directory convention and the docstrings of
`fiftyone_integration.py` name it `"labels"`. -/
def LABELS_FOLDER_NAME : String := "labels"

/-- `ACCEPTABLE_ANNOTATION_FOLDERS` (fiftyone_integration.py lines
18-21). -/
def ACCEPTABLE_ANNOTATION_FOLDERS : List String :=
  [YOLO_ANNOTATIONS_FOLDER_NAME, LABELS_FOLDER_NAME]

/-- The `annotations_dir is None` branch of
`get_patches_features_data_dict_list` (unsupervised.py lines 167-175):
probe `dataset_root / LABELS_FOLDER_NAME`, then
`dataset_root / YOLO_ANNOTATIONS_FOLDER_NAME`, else raise `RuntimeError`.
`fs` is the list of existing paths. -/
def chooseAnnotationsDir (fs : List String) (datasetRoot : String) :
    Except String String :=
  if (datasetRoot ++ "/" ++ LABELS_FOLDER_NAME) ∈ fs then
    Except.ok (datasetRoot ++ "/" ++ LABELS_FOLDER_NAME)
  else if (datasetRoot ++ "/" ++ YOLO_ANNOTATIONS_FOLDER_NAME) ∈ fs then
    Except.ok (datasetRoot ++ "/" ++ YOLO_ANNOTATIONS_FOLDER_NAME)
  else
    Except.error "Please provide an argument for the annotations_dir parameter."

/-- Python string `<`: code-point lexicographic order. -/
def pyStrLtB : List Char → List Char → Bool
  | [], [] => false
  | [], _ :: _ => true
  | _ :: _, [] => false
  | c :: cs, d :: ds =>
      if c.toNat < d.toNat then true
      else if c.toNat = d.toNat then pyStrLtB cs ds
      else false

/-- Python string `<=`. -/
def pyStrLeB (a b : String) : Bool := !(pyStrLtB b.data a.data)

/-- Insertion step of `pySorted`. -/
def pySortInsert (x : String) : List String → List String
  | [] => [x]
  | y :: ys => if pyStrLeB x y then x :: y :: ys else y :: pySortInsert x ys

/-- Python's `sorted` on a list of strings (ascending code-point order;
sibling paths share their parent prefix, so sorting the names is the same
as sorting the full paths). -/
def pySorted : List String → List String
  | [] => []
  | x :: xs => pySortInsert x (pySorted xs)

/-- `_get_annotations_root(subset_folder)` (fiftyone_integration.py lines
96-117): keep the subdirectories whose name is recognized; if any, return
`sorted(folders)[-1]`; otherwise return the subset folder itself. -/
def getAnnotationsRoot (subsetFolder : String) (subdirs : List String) :
    String :=
  let folders :=
    subdirs.filter (fun n => decide (n ∈ ACCEPTABLE_ANNOTATION_FOLDERS))
  if folders.length > 0 then (pySorted folders).getLastD subsetFolder
  else subsetFolder

lemma pySortInsert_front {x y : String} (ys : List String)
    (h : pyStrLeB x y = true) : pySortInsert x (y :: ys) = x :: y :: ys := by
  simp only [pySortInsert, if_pos h]

lemma pySortInsert_labels :
    ∀ a b : ℕ,
      pySortInsert LABELS_FOLDER_NAME
        (List.replicate a YOLO_ANNOTATIONS_FOLDER_NAME ++
          List.replicate b LABELS_FOLDER_NAME) =
      List.replicate a YOLO_ANNOTATIONS_FOLDER_NAME ++
        List.replicate (b + 1) LABELS_FOLDER_NAME := by
  intro a
  induction a with
  | zero =>
      intro b
      cases b with
      | zero => rfl
      | succ b =>
          simp only [List.nil_append, List.replicate_succ]
          exact pySortInsert_front _ (by decide)
  | succ a ih =>
      intro b
      have hcond : ¬ (pyStrLeB LABELS_FOLDER_NAME
          YOLO_ANNOTATIONS_FOLDER_NAME = true) := by decide
      show pySortInsert LABELS_FOLDER_NAME
          (YOLO_ANNOTATIONS_FOLDER_NAME ::
            (List.replicate a YOLO_ANNOTATIONS_FOLDER_NAME ++
              List.replicate b LABELS_FOLDER_NAME)) =
        YOLO_ANNOTATIONS_FOLDER_NAME ::
          (List.replicate a YOLO_ANNOTATIONS_FOLDER_NAME ++
            List.replicate (b + 1) LABELS_FOLDER_NAME)
      simp only [pySortInsert, if_neg hcond]
      rw [ih b]

lemma pySortInsert_yolo (a b : ℕ) :
    pySortInsert YOLO_ANNOTATIONS_FOLDER_NAME
      (List.replicate a YOLO_ANNOTATIONS_FOLDER_NAME ++
        List.replicate b LABELS_FOLDER_NAME) =
    List.replicate (a + 1) YOLO_ANNOTATIONS_FOLDER_NAME ++
      List.replicate b LABELS_FOLDER_NAME := by
  cases a with
  | zero =>
      cases b with
      | zero => rfl
      | succ b =>
          simp only [List.nil_append, List.replicate_succ]
          exact pySortInsert_front _ (by decide)
  | succ a =>
      simp only [List.replicate_succ, List.cons_append]
      exact pySortInsert_front _ (by decide)

lemma pySorted_shape :
    ∀ l : List String,
      (∀ z ∈ l, z = YOLO_ANNOTATIONS_FOLDER_NAME ∨ z = LABELS_FOLDER_NAME) →
      ∃ a b : ℕ,
        pySorted l =
          List.replicate a YOLO_ANNOTATIONS_FOLDER_NAME ++
            List.replicate b LABELS_FOLDER_NAME ∧
        (LABELS_FOLDER_NAME ∈ l ↔ 0 < b) ∧
        (YOLO_ANNOTATIONS_FOLDER_NAME ∈ l ↔ 0 < a) := by
  intro l
  induction l with
  | nil => intro _; exact ⟨0, 0, rfl, by simp, by simp⟩
  | cons x xs ih =>
      intro hmem
      obtain ⟨a, b, hshape, hbL, haY⟩ :=
        ih (fun z hz => hmem z (List.mem_cons_of_mem x hz))
      rcases hmem x (List.mem_cons_self x xs) with hx | hx
      · refine ⟨a + 1, b, ?_, ?_, ?_⟩
        · simp only [pySorted, hshape, hx, pySortInsert_yolo]
        · rw [List.mem_cons, hx]
          constructor
          · intro hc
            rcases hc with hc | hc
            · exact absurd hc (by decide)
            · exact hbL.mp hc
          · intro hb; exact Or.inr (hbL.mpr hb)
        · rw [List.mem_cons, hx]
          constructor
          · intro _; omega
          · intro _; exact Or.inl rfl
      · refine ⟨a, b + 1, ?_, ?_, ?_⟩
        · simp only [pySorted, hshape, hx, pySortInsert_labels]
        · rw [List.mem_cons, hx]
          constructor
          · intro _; omega
          · intro _; exact Or.inl rfl
        · rw [List.mem_cons, hx]
          constructor
          · intro hc
            rcases hc with hc | hc
            · exact absurd hc (by decide)
            · exact haY.mp hc
          · intro ha; exact Or.inr (haY.mpr ha)

lemma getLastD_replicate_shape (a b : ℕ) (d : String) :
    (List.replicate a YOLO_ANNOTATIONS_FOLDER_NAME ++
      List.replicate b LABELS_FOLDER_NAME).getLastD d =
    if 0 < b then LABELS_FOLDER_NAME
    else if 0 < a then YOLO_ANNOTATIONS_FOLDER_NAME
    else d := by
  cases b with
  | zero =>
      simp only [List.replicate_zero, List.append_nil]
      cases a with
      | zero => simp
      | succ a =>
          rw [if_neg (by omega), if_pos (by omega),
            List.replicate_succ' a, List.getLastD_concat]
  | succ b =>
      rw [if_pos (by omega), List.replicate_succ' b, ← List.append_assoc,
        List.getLastD_concat]

/-- C6 (amended): with no annotations directory supplied, both consumers
search exactly the two recognized names and both prefer `"labels"` when
both exist (for `_get_annotations_root`, `sorted(folders)[-1]` picks
`"labels"` because `"YOLO_darknet" < "labels"` in code-point order); but
only `get_patches_features_data_dict_list` fails fast when neither exists —
`_get_annotations_root` silently falls back to the subset folder itself. -/
theorem annotationsDirSearch_behaviour :
    (∀ (fs : List String) (root : String),
        (root ++ "/" ++ LABELS_FOLDER_NAME) ∈ fs →
        chooseAnnotationsDir fs root =
          Except.ok (root ++ "/" ++ LABELS_FOLDER_NAME)) ∧
    (∀ (fs : List String) (root : String),
        (root ++ "/" ++ LABELS_FOLDER_NAME) ∉ fs →
        (root ++ "/" ++ YOLO_ANNOTATIONS_FOLDER_NAME) ∈ fs →
        chooseAnnotationsDir fs root =
          Except.ok (root ++ "/" ++ YOLO_ANNOTATIONS_FOLDER_NAME)) ∧
    (∀ (fs : List String) (root : String),
        (root ++ "/" ++ LABELS_FOLDER_NAME) ∉ fs →
        (root ++ "/" ++ YOLO_ANNOTATIONS_FOLDER_NAME) ∉ fs →
        chooseAnnotationsDir fs root =
          Except.error
            "Please provide an argument for the annotations_dir parameter.") ∧
    (∀ (subset : String) (subdirs : List String),
        LABELS_FOLDER_NAME ∈ subdirs →
        getAnnotationsRoot subset subdirs = LABELS_FOLDER_NAME) ∧
    (∀ (subset : String) (subdirs : List String),
        LABELS_FOLDER_NAME ∉ subdirs →
        YOLO_ANNOTATIONS_FOLDER_NAME ∈ subdirs →
        getAnnotationsRoot subset subdirs = YOLO_ANNOTATIONS_FOLDER_NAME) ∧
    (∀ (subset : String) (subdirs : List String),
        LABELS_FOLDER_NAME ∉ subdirs →
        YOLO_ANNOTATIONS_FOLDER_NAME ∉ subdirs →
        getAnnotationsRoot subset subdirs = subset) := by
  have hchar : ∀ (subdirs : List String),
      ∀ z ∈ subdirs.filter
        (fun n => decide (n ∈ ACCEPTABLE_ANNOTATION_FOLDERS)),
      z = YOLO_ANNOTATIONS_FOLDER_NAME ∨ z = LABELS_FOLDER_NAME := by
    intro subdirs z hz
    have h2 := (List.mem_filter.mp hz).2
    have hz2 : z ∈ ACCEPTABLE_ANNOTATION_FOLDERS := of_decide_eq_true h2
    simpa [ACCEPTABLE_ANNOTATION_FOLDERS] using hz2
  refine ⟨?_, ?_, ?_, ?_, ?_, ?_⟩
  · intro fs root h
    simp [chooseAnnotationsDir, h]
  · intro fs root h1 h2
    simp [chooseAnnotationsDir, h1, h2]
  · intro fs root h1 h2
    simp [chooseAnnotationsDir, h1, h2]
  · intro subset subdirs hL
    have hLf : LABELS_FOLDER_NAME ∈ subdirs.filter
        (fun n => decide (n ∈ ACCEPTABLE_ANNOTATION_FOLDERS)) :=
      List.mem_filter.mpr ⟨hL, by decide⟩
    obtain ⟨a, b, hshape, hbL, _⟩ := pySorted_shape _ (hchar subdirs)
    have hb : 0 < b := hbL.mp hLf
    have hlen : 0 < (subdirs.filter
        (fun n => decide (n ∈ ACCEPTABLE_ANNOTATION_FOLDERS))).length :=
      List.length_pos.mpr (List.ne_nil_of_mem hLf)
    simp only [getAnnotationsRoot]
    rw [if_pos hlen, hshape, getLastD_replicate_shape, if_pos hb]
  · intro subset subdirs hL hY
    have hYf : YOLO_ANNOTATIONS_FOLDER_NAME ∈ subdirs.filter
        (fun n => decide (n ∈ ACCEPTABLE_ANNOTATION_FOLDERS)) :=
      List.mem_filter.mpr ⟨hY, by decide⟩
    have hLf : LABELS_FOLDER_NAME ∉ subdirs.filter
        (fun n => decide (n ∈ ACCEPTABLE_ANNOTATION_FOLDERS)) := by
      intro hc
      exact hL (List.mem_filter.mp hc).1
    obtain ⟨a, b, hshape, hbL, haY⟩ := pySorted_shape _ (hchar subdirs)
    have hb : ¬ 0 < b := fun hb => hLf (hbL.mpr hb)
    have ha : 0 < a := haY.mp hYf
    have hlen : 0 < (subdirs.filter
        (fun n => decide (n ∈ ACCEPTABLE_ANNOTATION_FOLDERS))).length :=
      List.length_pos.mpr (List.ne_nil_of_mem hYf)
    simp only [getAnnotationsRoot]
    rw [if_pos hlen, hshape, getLastD_replicate_shape, if_neg hb, if_pos ha]
  · intro subset subdirs hL hY
    have hnil : subdirs.filter
        (fun n => decide (n ∈ ACCEPTABLE_ANNOTATION_FOLDERS)) = [] := by
      rw [List.filter_eq_nil_iff]
      intro z hz hc
      rcases (by simpa [ACCEPTABLE_ANNOTATION_FOLDERS] using
        of_decide_eq_true hc :
          z = YOLO_ANNOTATIONS_FOLDER_NAME ∨ z = LABELS_FOLDER_NAME) with
        h | h
      · exact hY (h ▸ hz)
      · exact hL (h ▸ hz)
    simp [getAnnotationsRoot, hnil]

/-- Witness for C6 (amended): concrete filesystems exercising each branch:
`"labels"` present and preferred, neither present raising for the
unsupervised consumer, both names present picking `"labels"`, and the
silent fallback of `_get_annotations_root`. -/
theorem annotationsDirSearch_behaviour_witness :
    (("d" ++ "/" ++ LABELS_FOLDER_NAME) ∈ (["d/labels"] : List String) ∧
      chooseAnnotationsDir ["d/labels"] "d" =
        Except.ok ("d" ++ "/" ++ LABELS_FOLDER_NAME)) ∧
    (("e" ++ "/" ++ LABELS_FOLDER_NAME) ∉ ([] : List String) ∧
      chooseAnnotationsDir [] "e" =
        Except.error
          "Please provide an argument for the annotations_dir parameter.") ∧
    (LABELS_FOLDER_NAME ∈ (["YOLO_darknet", "labels"] : List String) ∧
      getAnnotationsRoot "s" ["YOLO_darknet", "labels"] =
        LABELS_FOLDER_NAME) ∧
    getAnnotationsRoot "s" ["misc"] = "s" :=
  ⟨⟨by decide, annotationsDirSearch_behaviour.1 ["d/labels"] "d" (by decide)⟩,
   ⟨by decide,
     annotationsDirSearch_behaviour.2.2.1 [] "e" (by decide) (by decide)⟩,
   ⟨by decide,
     annotationsDirSearch_behaviour.2.2.2.1 "s" ["YOLO_darknet", "labels"]
       (by decide)⟩,
   annotationsDirSearch_behaviour.2.2.2.2.2 "s" ["misc"] (by decide)
     (by decide)⟩

/-- C6 counterexample: a subset folder with no recognized annotations
subdirectory does not produce an error: `_get_annotations_root` silently
returns the subset folder itself. -/
theorem getAnnotationsRoot_silent_fallback :
    YOLO_ANNOTATIONS_FOLDER_NAME ∉ (["images"] : List String) ∧
    LABELS_FOLDER_NAME ∉ (["images"] : List String) ∧
    getAnnotationsRoot "subset_1" ["images"] = "subset_1" := by decide

/-! ## Path list handed to the external labeling tool

`find_errors` in src/yo_ratchet/fiftyone_integration/filter.py (lines
165-181) post-processes the extracted filepaths before handing them to the
OpenLabeling thread:
`file_names = [Path(f).resolve() for f in file_names]` followed by
`file_names = [str(f) for f in file_names if f.exists()]`.  `resolve` is
the filesystem's path normalisation, passed in as a function, and `fs` is
file existence.  The legacy `find_errors` in
src/yo_wrangle/fiftyone_integration.py (lines 399-413) hands the extracted
list to the thread unchanged. -/

/-- The path list the yo_ratchet `find_errors` launches OpenLabeling
with. -/
def findErrorsFileNames (resolve : String → String)
    (fs : String → Bool) (extracted : List String) : List String :=
  (extracted.map resolve).filter fs

/-- The path list the legacy yo_wrangle `find_errors` launches OpenLabeling
with: the extracted filepaths, unchanged. -/
def findErrorsFileNamesLegacy (extracted : List String) : List String :=
  extracted

/-- C7 (amended): the yo_ratchet `find_errors` hands the labeling tool only
paths that exist (every element of the launched list passes the existence
check), preserving order and multiplicity — it never deduplicates; the
legacy `find_errors` hands the extracted list through entirely unchecked. -/
theorem findErrorsFileNames_exist_only (resolve : String → String)
    (fs : String → Bool) (extracted : List String) :
    (∀ p ∈ findErrorsFileNames resolve fs extracted, fs p = true) ∧
    findErrorsFileNamesLegacy extracted = extracted := by
  refine ⟨?_, rfl⟩
  intro p hp
  exact (List.mem_filter.mp hp).2

/-- Witness for C7 (amended) on a one-element filesystem. -/
theorem findErrorsFileNames_exist_only_witness :
    "img.jpg" ∈ findErrorsFileNames (fun p => p)
        (fun p => p == "img.jpg") ["img.jpg"] ∧
    ("img.jpg" == "img.jpg") = true ∧
    findErrorsFileNamesLegacy ["other.jpg"] = ["other.jpg"] :=
  ⟨by decide,
    (findErrorsFileNames_exist_only (fun p => p)
      (fun p => p == "img.jpg") ["img.jpg"]).1 "img.jpg" (by decide),
    (findErrorsFileNames_exist_only (fun p => p)
      (fun p => p == "img.jpg") ["other.jpg"]).2⟩

/-- C7 counterexample: a duplicated extracted path survives to the launched
list — no deduplication happens anywhere on the way to the labeling
tool. -/
theorem findErrorsFileNames_keeps_duplicates :
    findErrorsFileNames (fun p => p) (fun _ => true)
        ["img.jpg", "img.jpg"] = ["img.jpg", "img.jpg"] ∧
    ¬ (["img.jpg", "img.jpg"] : List String).Nodup := by decide

/-! ## Destination-directory guards

`save_bounding_boxes_on_images` (src/yo_wrangle/visualise.py lines 47-126)
reads the detections csv (a read, not a write), then asserts that
`dst_root` does not exist before `mkdir` and the image-writing loop.
`selectively_copy_training_data_for_selected_classes`
(src/yo_ratchet/yo_wrangle/mine.py lines 94-152) guards
`dst_images_dir / YOLO_ANNOTATIONS_FOLDER_NAME` — not `dst_images_dir`
itself — then creates directories and copies annotation and image files
for each hit.  Both are modelled over `fs`, the list of existing paths;
the `Except.ok` payload is the list of paths the operation creates, so an
`Except.error` result performs zero writes. -/

/-- `save_bounding_boxes_on_images`: `jpgStems` are the stems of the
images found under `images_root`; `csvPhotoNames` the `Photo_Name` column
of the csv.  One output image is written per input image with at least one
csv row (each row rewrites the same `f"{stem}_{suffix}"` path). -/
def saveBoundingBoxesOnImages (fs : List String) (dstRoot : String)
    (jpgStems : List String) (csvPhotoNames : List String) :
    Except String (List String) :=
  if dstRoot ∈ fs then
    Except.error "AssertionError: Destination directory already exists"
  else
    Except.ok (dstRoot ::
      (jpgStems.filter
        (fun stem => csvPhotoNames.contains (stem ++ ".jpg"))).map
          (fun stem => dstRoot ++ "/" ++ stem ++ "_.jpg"))

/-- `selectively_copy_training_data_for_selected_classes`: `hitList` is
the stem list produced by `_get_hits_for_annotations_in_classes` (defined
in a module outside the provided sources, so passed as an input). -/
def selectivelyCopyTrainingData (fs : List String) (dstImagesDir : String)
    (hitList : List String) : Except String (List String) :=
  if (dstImagesDir ++ "/" ++ YOLO_ANNOTATIONS_FOLDER_NAME) ∈ fs then
    Except.error "Destination folder already exists. Exiting."
  else
    Except.ok ((dstImagesDir ++ "/" ++ YOLO_ANNOTATIONS_FOLDER_NAME) ::
      (hitList.map (fun stem =>
        dstImagesDir ++ "/" ++ YOLO_ANNOTATIONS_FOLDER_NAME ++ "/" ++
          stem ++ ".txt") ++
       hitList.map (fun stem => dstImagesDir ++ "/" ++ stem ++ ".jpg")))

/-- C3 (amended): each operation aborts with zero writes exactly when its
own guarded path exists: `save_bounding_boxes_on_images` guards `dst_root`
itself, while `selectively_copy_training_data_for_selected_classes` guards
only `dst_images_dir / "YOLO_darknet"` — a pre-existing `dst_images_dir`
alone does not abort it. -/
theorem destinationGuards (fs : List String) (dstRoot dstImagesDir : String)
    (jpgStems csvPhotoNames hitList : List String)
    (h1 : dstRoot ∈ fs)
    (h2 : (dstImagesDir ++ "/" ++ YOLO_ANNOTATIONS_FOLDER_NAME) ∈ fs) :
    saveBoundingBoxesOnImages fs dstRoot jpgStems csvPhotoNames =
      Except.error "AssertionError: Destination directory already exists" ∧
    selectivelyCopyTrainingData fs dstImagesDir hitList =
      Except.error "Destination folder already exists. Exiting." := by
  constructor
  · simp [saveBoundingBoxesOnImages, h1]
  · simp [selectivelyCopyTrainingData, h2]

/-- Witness for C3 (amended) on a filesystem containing both guarded
paths. -/
theorem destinationGuards_witness :
    ("out" ∈ (["out", "dst/YOLO_darknet"] : List String)) ∧
    (("dst" ++ "/" ++ YOLO_ANNOTATIONS_FOLDER_NAME) ∈
      (["out", "dst/YOLO_darknet"] : List String)) ∧
    (saveBoundingBoxesOnImages ["out", "dst/YOLO_darknet"] "out" ["a"] [] =
      Except.error "AssertionError: Destination directory already exists" ∧
    selectivelyCopyTrainingData ["out", "dst/YOLO_darknet"] "dst" ["a"] =
      Except.error "Destination folder already exists. Exiting.") :=
  ⟨by decide, by decide,
    destinationGuards ["out", "dst/YOLO_darknet"] "out" "dst" ["a"] [] ["a"]
      (by decide) (by decide)⟩

/-- C3 counterexample: for the mine.py copy operation, a pre-existing
destination directory `"dst"` (without a `YOLO_darknet` subfolder) does
not raise: the operation proceeds and writes into it. -/
theorem selectivelyCopy_preexisting_dst_not_guarded :
    "dst" ∈ (["dst"] : List String) ∧
    selectivelyCopyTrainingData ["dst"] "dst" ["a"] =
      Except.ok ["dst/YOLO_darknet", "dst/YOLO_darknet/a.txt",
        "dst/a.jpg"] := by decide

/-! ## Outlier selection
(src/yo_ratchet/yo_filter/unsupervised.py lines 25-81)

`find_n_most_distant_outliers_in_batch` standardises feature distances and
attaches a `delta` column to the test dataframe.  The feature extraction is
a neural network, so the embedding takes the per-class test rows (each an
`image_name` with its `delta`) as input.  Two parts of the function are
embedded: the test-side `get_features_matrix` call, which raises `KeyError`
when no test patch matched the class (its `len_results == 0` guard further
down is therefore dead code), and the tail (lines 68-81), which sorts by
`delta` descending, lists the image names, then slices. -/

/-- One row of `test_df`: its `image_name` and its standardised distance
`delta`. -/
structure TestRow where
  imageName : String
  delta : ℚ
deriving DecidableEq, Repr

/-- The ordering used by `test_df.sort_values(by=["delta"],
ascending=False)`. -/
def deltaDesc (a b : TestRow) : Prop := b.delta ≤ a.delta

instance : DecidableRel deltaDesc := fun a b =>
  inferInstanceAs (Decidable (b.delta ≤ a.delta))

instance : IsTotal TestRow deltaDesc := ⟨fun a b => le_total b.delta a.delta⟩

instance : IsTrans TestRow deltaDesc := ⟨fun _ _ _ h1 h2 => le_trans h2 h1⟩

/-- `get_features_matrix` (unsupervised.py lines 84-91) at the granularity
this claim needs: the per-class patch rows are collected upstream by
`get_patches_features_data_dict_list` and passed in; `pd.DataFrame` of an
empty dict list has no columns, so `list(df["features"])` (line 89) raises
`KeyError` when no patch matched the class, and otherwise the rows pass
through to the caller. -/
def getFeaturesMatrixRows (rows : List TestRow) :
    Except String (List TestRow) :=
  match rows with
  | [] => Except.error "KeyError: features"
  | _ => Except.ok rows

/-- `find_n_most_distant_outliers_in_batch`, lines 50-81: the test-side
`get_features_matrix` call (line 62) raises `KeyError` when no test patch
matches `class_id`; otherwise the tail (lines 71-81) sorts the rows by
`delta` descending, takes the image names, and slices: the
`len_results == 0` branch returns `[]` (it is unreachable, since an empty
row set already raised); a small result (`len < n_outliers * 3`) replaces
`n_outliers` by `max(int(round(len / 3, 0)), 1)`; then
`image_names[:n_outliers]`. -/
def findNMostDistantOutliersInBatch (testRows : List TestRow)
    (nOutliers : ℤ) : Except String (List String) :=
  match getFeaturesMatrixRows testRows with
  | Except.error e => Except.error e
  | Except.ok rows =>
      let sorted := List.insertionSort deltaDesc rows
      let imageNames := sorted.map (fun r => r.imageName)
      let lenResults := sorted.length
      if lenResults = 0 then Except.ok []
      else if (lenResults : ℤ) < nOutliers * 3 then
        Except.ok (pySliceTake imageNames
          (max (pyRoundHalfEven ((lenResults : ℚ) / 3)) 1))
      else Except.ok (pySliceTake imageNames nOutliers)

lemma pyRoundHalfEven_le_ceil (q : ℚ) : pyRoundHalfEven q ≤ ⌈q⌉ := by
  have hfc : ⌊q⌋ ≤ ⌈q⌉ := Int.floor_le_ceil q
  have hlt : (1 : ℚ) / 2 ≤ q - ⌊q⌋ → ⌊q⌋ + 1 ≤ ⌈q⌉ := by
    intro h
    have hq : ((⌊q⌋ : ℤ) : ℚ) < q := by linarith
    have := Int.lt_ceil.mpr hq
    omega
  simp only [pyRoundHalfEven]
  split_ifs with h1 h2 h3
  · exact hfc
  · exact hlt h2.le
  · exact hfc
  · exact hlt (not_lt.mp h1)

/-- C10 (amended): when no test patch matches `class_id`, the call raises
`KeyError` (at `get_features_matrix`) instead of returning a list.
Otherwise, for every call with `n_outliers ≥ 0`, the returned list is a
prefix of the image names sorted by descending delta (so its entries are
ordered by descending standardised distance), and its length is
`max(round(k/3), 1)` when `k < 3·n_outliers` and exactly `n_outliers`
otherwise. -/
theorem findNMostDistantOutliers_spec (rows : List TestRow) (n : ℤ)
    (hn : 0 ≤ n) (hne : rows ≠ []) :
    List.Sorted (fun a b : ℚ => b ≤ a)
      ((List.insertionSort deltaDesc rows).map (fun r => r.delta)) ∧
    findNMostDistantOutliersInBatch rows n =
      Except.ok
        (((List.insertionSort deltaDesc rows).map
            (fun r => r.imageName)).take
          (if (rows.length : ℤ) < n * 3 then
            (max (pyRoundHalfEven ((rows.length : ℚ) / 3)) 1).toNat
          else n.toNat)) ∧
    ((((List.insertionSort deltaDesc rows).map
        (fun r => r.imageName)).take
        (if (rows.length : ℤ) < n * 3 then
          (max (pyRoundHalfEven ((rows.length : ℚ) / 3)) 1).toNat
        else n.toNat)).length =
      (if (rows.length : ℤ) < n * 3 then
        (max (pyRoundHalfEven ((rows.length : ℚ) / 3)) 1).toNat
      else n.toNat)) ∧
    findNMostDistantOutliersInBatch [] n =
      Except.error "KeyError: features" := by
  have hperm := List.perm_insertionSort deltaDesc rows
  have hlen : (List.insertionSort deltaDesc rows).length = rows.length :=
    hperm.length_eq
  have hsorted := List.sorted_insertionSort deltaDesc rows
  have hmapsorted : List.Sorted (fun a b : ℚ => b ≤ a)
      ((List.insertionSort deltaDesc rows).map (fun r => r.delta)) :=
    List.Pairwise.map _ (fun _ _ hab => hab) hsorted
  obtain ⟨r, rs, rfl⟩ : ∃ r rs, rows = r :: rs := by
    cases rows with
    | nil => exact absurd rfl hne
    | cons r rs => exact ⟨r, rs, rfl⟩
  have h0 : (r :: rs).length ≠ 0 := by
    rw [List.length_cons]; omega
  have hk1 : 1 ≤ (r :: rs).length := by
    rw [List.length_cons]; omega
  have heq : findNMostDistantOutliersInBatch (r :: rs) n =
      Except.ok
        (((List.insertionSort deltaDesc (r :: rs)).map
            (fun x => x.imageName)).take
          (if ((r :: rs).length : ℤ) < n * 3 then
            (max (pyRoundHalfEven (((r :: rs).length : ℚ) / 3)) 1).toNat
          else n.toNat)) := by
    simp only [findNMostDistantOutliersInBatch, getFeaturesMatrixRows, hlen]
    rw [if_neg h0]
    by_cases hlt : ((r :: rs).length : ℤ) < n * 3
    · rw [if_pos hlt, if_pos hlt]
      have hm : (0 : ℤ) ≤
          max (pyRoundHalfEven (((r :: rs).length : ℚ) / 3)) 1 :=
        le_trans (by norm_num) (le_max_right _ _)
      rw [pySliceTake, if_pos hm]
    · rw [if_neg hlt, if_neg hlt, pySliceTake, if_pos hn]
  refine ⟨hmapsorted, heq, ?_, rfl⟩
  rw [List.length_take, List.length_map, hlen]
  by_cases hlt : ((r :: rs).length : ℤ) < n * 3
  · rw [if_pos hlt]
    have hr : pyRoundHalfEven (((r :: rs).length : ℚ) / 3) ≤
        ⌈((r :: rs).length : ℚ) / 3⌉ := pyRoundHalfEven_le_ceil _
    have hkq : (0 : ℚ) ≤ ((r :: rs).length : ℚ) := by positivity
    have hc : ⌈((r :: rs).length : ℚ) / 3⌉ ≤ ((r :: rs).length : ℤ) := by
      rw [Int.ceil_le]
      push_cast
      linarith
    have hmax : max (pyRoundHalfEven (((r :: rs).length : ℚ) / 3)) 1 ≤
        ((r :: rs).length : ℤ) := by
      apply max_le (le_trans hr hc)
      exact_mod_cast hk1
    omega
  · rw [if_neg hlt]
    omega

/-- Witness for C10 (amended) at a single test row and `n_outliers = 0`. -/
theorem findNMostDistantOutliers_spec_witness :
    (0 : ℤ) ≤ 0 ∧ ([TestRow.mk "a" 0] : List TestRow) ≠ [] ∧
    (List.Sorted (fun a b : ℚ => b ≤ a)
      ((List.insertionSort deltaDesc [TestRow.mk "a" 0]).map
        (fun r => r.delta)) ∧
    findNMostDistantOutliersInBatch [TestRow.mk "a" 0] 0 =
      Except.ok
        (((List.insertionSort deltaDesc [TestRow.mk "a" 0]).map
            (fun r => r.imageName)).take
          (if (([TestRow.mk "a" 0] : List TestRow).length : ℤ) < 0 * 3 then
            (max (pyRoundHalfEven
              ((([TestRow.mk "a" 0] : List TestRow).length : ℚ) / 3))
              1).toNat
          else (0 : ℤ).toNat)) ∧
    ((((List.insertionSort deltaDesc [TestRow.mk "a" 0]).map
        (fun r => r.imageName)).take
        (if (([TestRow.mk "a" 0] : List TestRow).length : ℤ) < 0 * 3 then
          (max (pyRoundHalfEven
            ((([TestRow.mk "a" 0] : List TestRow).length : ℚ) / 3))
            1).toNat
        else (0 : ℤ).toNat)).length =
      (if (([TestRow.mk "a" 0] : List TestRow).length : ℤ) < 0 * 3 then
        (max (pyRoundHalfEven
          ((([TestRow.mk "a" 0] : List TestRow).length : ℚ) / 3))
          1).toNat
      else (0 : ℤ).toNat)) ∧
    findNMostDistantOutliersInBatch [] 0 =
      Except.error "KeyError: features") :=
  ⟨le_refl 0, by decide,
    findNMostDistantOutliers_spec [TestRow.mk "a" 0] 0 (le_refl 0)
      (by decide)⟩

/-- C10 counterexample: the claim fails in two ways.  With no matching test
row the call raises `KeyError` at `get_features_matrix` instead of
returning the claimed length-0 list; and with `n_outliers = -1` and one
matching row the claim's `otherwise` case promises a list of length
exactly `-1`, while the code's Python slice `image_names[:-1]` produces
the empty list. -/
theorem findNMostDistantOutliers_claim_fails :
    findNMostDistantOutliersInBatch [] 5 =
      Except.error "KeyError: features" ∧
    findNMostDistantOutliersInBatch [TestRow.mk "img" 0] (-1) =
      Except.ok [] ∧
    ([TestRow.mk "img" 0] : List TestRow).length ≠ 0 ∧
    ¬ ((([TestRow.mk "img" 0] : List TestRow).length : ℤ) < -1 * 3) ∧
    (([] : List String).length : ℤ) ≠ -1 := by decide
